import Mathlib

/-!
# sshcontainers: a shallow embedding of `main.go`

The program bridges an SSH session to a `docker exec` inside a container that
is named after the client's public key.  This file embeds the serving part of
`main.go` (`authenticate`, `handle`, `ensureContainerStarted`, `containerExec`,
`handleResize`) as Lean functions and proves properties of them.

Modelling conventions.

* Go `error` values are the inductive `GoError`; a Go `error` that may be `nil`
  is an `Option GoError`.
* The Go map `s.keys` is a list of `(comment, key)` pairs in the order in which
  one `range` loop visits them.  Go leaves that order unspecified, so every
  statement is proved for all lists.
* The libraries the program calls (the SSH library, the docker client, the
  event feed) are inputs: the key library is a record of functions, the
  docker daemon is an explicit state, and what a blocking channel receive yields
  is given by an oracle record.
* The main goroutine of a session is sequential; its observable actions are
  collected in a trace (`List Event`) in program order.
* A Go string that is parsed byte by byte (`strconv.Atoi`) is a list of bytes.
-/

namespace SSHContainers

/-! ## Errors -/

/-- Go error values, as far as the program tells them apart: the sentinel
`context.Canceled`, a docker "not found" error, any other error, and an error
wrapped by `errors.WithStack`. -/
inductive GoError where
  | canceled
  | notFound (what : String)
  | other (msg : String)
  | withStack (inner : GoError)
  deriving DecidableEq, Repr

/-- The function `errors.WithStack`: `nil` stays `nil`, an error gets wrapped. -/
def withStack (err : Option GoError) : Option GoError :=
  err.map GoError.withStack

/-- The function `errors.Cause`: strips the wrappers that have a cause. -/
def cause : GoError → GoError
  | .withStack inner => cause inner
  | .canceled => .canceled
  | .notFound what => .notFound what
  | .other msg => .other msg

/-- The function `client.IsErrNotFound`, applied to a possibly-nil error. -/
def isErrNotFound : Option GoError → Bool
  | some (.notFound _) => true
  | _ => false

/-! ## Strings -/

/-- Scanning part of `strings.ReplaceAll` for a non-empty `old`: `skip` counts
the characters of a match that are still to be dropped. -/
def replaceScan (old new : List Char) : Nat → List Char → List Char
  | _, [] => []
  | skip + 1, _ :: cs => replaceScan old new skip cs
  | 0, c :: cs =>
    if old.isPrefixOf (c :: cs) then new ++ replaceScan old new (old.length - 1) cs
    else c :: replaceScan old new 0 cs

/-- The function `strings.ReplaceAll s old new`: every non-overlapping
occurrence of `old`, from the left, is replaced by `new`; for an empty `old`
the replacement is put before every character and at the end. -/
def replaceAll (s old new : String) : String :=
  if old.data = [] then
    String.mk (new.data ++ s.data.flatMap (fun c => c :: new.data))
  else
    String.mk (replaceScan old.data new.data 0 s.data)

/-! ## The server and the key library -/

/-- What the program uses of the SSH key library: `ssh.KeysEqual` and
`gossh.FingerprintLegacyMD5`. -/
structure KeyLib (K : Type) where
  keysEqual : K → K → Bool
  fingerprintLegacyMD5 : K → String

/-- The `server` struct, without the docker client handle (the daemon is an
explicit state below). -/
structure Server (K : Type) where
  image : String
  shell : String
  keys : List (String × K)
  wildcard : Bool

/-- The `range s.keys` loop of `authenticate`: true at the first entry that is
key-equal to the presented key. -/
def authenticateLoop {K : Type} (lib : KeyLib K) (key : K) : List (String × K) → Bool
  | [] => false
  | (_, pubkey) :: rest =>
    if lib.keysEqual key pubkey then true else authenticateLoop lib key rest

/-- The method `server.authenticate`: the verdict and the lines it prints. -/
def authenticate {K : Type} (lib : KeyLib K) (s : Server K) (remoteAddr : String) (key : K) :
    Bool × List String :=
  if s.wildcard then (true, [])
  else if authenticateLoop lib key s.keys then (true, [])
  else (false, ["public key " ++ lib.fingerprintLegacyMD5 key ++ " rejected from client "
    ++ remoteAddr ++ "\n"])

/-- The first lines of `server.handle`: the container name of a session whose
public key is `key`. -/
def containerName {K : Type} (lib : KeyLib K) (s : Server K) (key : K) : String :=
  let name := s.keys.foldl
    (fun acc entry => if lib.keysEqual entry.2 key then entry.1 else acc) ""
  if s.wildcard then
    "wildcard" ++ replaceAll (lib.fingerprintLegacyMD5 key) ":" ""
  else name

/-! ## The docker daemon -/

/-- Modelled from the spec: the state of the compute-unit runtime (the docker
daemon behind `s.docker`), which is not part of the repository.  It holds the
images that have been pulled and the existing units, each with its running
flag. -/
structure Docker where
  images : List String
  units : List (String × Bool)
  deriving DecidableEq, Repr

/-- Whether a unit of that name exists. -/
def Docker.hasUnit (d : Docker) (cid : String) : Bool :=
  d.units.any (fun u => u.1 == cid)

/-- Modelled from the spec: `inspect(identity) -> exists|not-found`.  The call
`ContainerInspect` reports a not-found error exactly for absent units. -/
def Docker.containerInspect (d : Docker) (cid : String) : Option GoError :=
  if d.hasUnit cid then none else some (.notFound ("No such container: " ++ cid))

/-- Modelled from the spec: `create(identity, image, ...) -> error`.  The call
`ContainerCreate` fails when the image has not been pulled or the name is
taken; when it succeeds the unit exists and is stopped. -/
def Docker.containerCreate (d : Docker) (image cid : String) : Option GoError × Docker :=
  if !d.images.contains image then (some (.other ("No such image: " ++ image)), d)
  else if d.hasUnit cid then (some (.other ("Conflict: " ++ cid)), d)
  else (none, { d with units := d.units ++ [(cid, false)] })

/-- Modelled from the spec: `start(identity) -> error` (idempotent).  The call
`ContainerStart` succeeds on an existing unit and leaves it running; it is a
no-op on a running unit and fails on an absent one. -/
def Docker.containerStart (d : Docker) (cid : String) : Option GoError × Docker :=
  if d.hasUnit cid then
    (none, { d with units := d.units.map (fun u => if u.1 == cid then (u.1, true) else u) })
  else (some (.notFound ("No such container: " ++ cid)), d)

/-! ## Sessions and traces -/

/-- The type `ssh.Window`: the dimensions are Go `int`s. -/
structure Window where
  Width : Int
  Height : Int
  deriving DecidableEq, Repr

/-- The type `types.ResizeOptions`: the dimensions are Go `uint`s. -/
structure ResizeOptions where
  Height : Nat
  Width : Nat
  deriving DecidableEq, Repr

/-- What `handle` and `containerExec` read from an `ssh.Session`. -/
structure Session (K : Type) where
  publicKey : K
  remoteAddr : String
  command : List String
  environ : List String
  tty : Bool

/-- The observable actions of a session, in the order in which its goroutine
performs them: printed lines, requests to the docker daemon, goroutines
started, values received from channels, and the final `sess.Exit`. -/
inductive Event where
  | printf (line : String)
  | printErr (err : GoError)
  | logPrintln (err : GoError)
  | containerInspect (cid : String)
  | containerCreate (image cid : String)
  | containerStart (cid : String)
  | containerExecCreate (cid : String) (cmd env : List String) (tty : Bool)
  | containerExecAttach (execid : String)
  | goInputRelay
  | goOutputRelay (tty : Bool)
  | events (cid : String)
  | containerExecStart (execid : String)
  | goHandleResize (execid : String)
  | containerExecResize (execid : String) (opts : ResizeOptions)
  | recvErrs (err : Option GoError)
  | recvMsg (attributes : List (String × List Nat))
  | recvOutputErr (err : Option GoError)
  | exit (status : Int)
  deriving DecidableEq, Repr

/-! ## `ensureContainerStarted` -/

/-- The method `server.ensureContainerStarted`: the returned error, the state
of the daemon afterwards, and the requests issued. -/
def ensureContainerStarted (d : Docker) (image cid : String) :
    Option GoError × Docker × List Event :=
  let err := d.containerInspect cid
  if isErrNotFound err then
    match d.containerCreate image cid with
    | (some err, d1) =>
      (withStack (some err), d1, [.containerInspect cid, .containerCreate image cid])
    | (none, d1) =>
      match d1.containerStart cid with
      | (some err, d2) =>
        (withStack (some err), d2,
          [.containerInspect cid, .containerCreate image cid, .containerStart cid])
      | (none, d2) =>
        (none, d2, [.containerInspect cid, .containerCreate image cid, .containerStart cid])
  else
    match d.containerStart cid with
    | (some err, d2) => (withStack (some err), d2, [.containerInspect cid, .containerStart cid])
    | (none, d2) => (none, d2, [.containerInspect cid, .containerStart cid])

/-! ## `strconv.Atoi` (Go standard library), on a 64-bit target -/

/-- The constant `strconv.IntSize`: the size of a Go `int` in bits. -/
def intSize : Nat := 64

/-- Conversion to a signed `intSize`-bit integer (two's complement wrap). -/
def wrapInt (x : Int) : Int :=
  (x + 2 ^ (intSize - 1)) % 2 ^ intSize - 2 ^ (intSize - 1)

/-- The two errors of `strconv`: `malformed` is `ErrSyntax`, `outOfRange` is
`ErrRange`. -/
inductive NumError where
  | malformed
  | outOfRange
  deriving DecidableEq, Repr

/-- The digit loop of the fast path of `strconv.Atoi`: `ch -= '0'` is a byte
subtraction, `n = n*10 + int(ch)` an `int` operation; `none` is the syntax
error. -/
def atoiFastLoop (n : Int) : List Nat → Option Int
  | [] => some n
  | ch :: rest =>
    let ch0 := (ch + 256 - 48) % 256
    if ch0 > 9 then none else atoiFastLoop (wrapInt (n * 10 + ch0)) rest

/-- The loop of `strconv.ParseUint` for base 10 and bit size 64: a byte that is
not a decimal digit is a syntax error (a letter as a digit that is too large
for the base, any other byte by the default case); overflow is a range error
with the largest value. -/
def parseUintLoop (n : Nat) : List Nat → Nat × Option NumError
  | [] => (n, none)
  | c :: rest =>
    if 48 ≤ c ∧ c ≤ 57 then
      let d := c - 48
      if n ≥ (2 ^ 64 - 1) / 10 + 1 then (2 ^ 64 - 1, some .outOfRange)
      else
        let n10 := (n * 10) % 2 ^ 64
        let n1 := (n10 + d) % 2 ^ 64
        if n1 < n10 ∨ n1 > 2 ^ 64 - 1 then (2 ^ 64 - 1, some .outOfRange)
        else parseUintLoop n1 rest
    else (0, some .malformed)

/-- The function `strconv.ParseUint(s, 10, 0)`. -/
def parseUint (s : List Nat) : Nat × Option NumError :=
  if s = [] then (0, some .malformed) else parseUintLoop 0 s

/-- The function `strconv.ParseInt(s, 10, 0)`; byte 43 is `+`, byte 45 is `-`. -/
def parseInt (s : List Nat) : Int × Option NumError :=
  if s = [] then (0, some .malformed)
  else
    let neg := s.head? = some 45
    let body := if s.head? = some 43 ∨ s.head? = some 45 then s.tail else s
    match parseUint body with
    | (_, some .malformed) => (0, some .malformed)
    | (un, _) =>
      let cutoff : Nat := 2 ^ (intSize - 1)
      if ¬ neg ∧ un ≥ cutoff then ((cutoff : Int) - 1, some .outOfRange)
      else if neg ∧ un > cutoff then (-(cutoff : Int), some .outOfRange)
      else
        let n := wrapInt un
        (if neg then wrapInt (-n) else n, none)

/-- The function `strconv.Atoi`: the value and the error.  Short strings take
the fast path, the others go through `ParseInt`. -/
def atoi (s : List Nat) : Int × Option NumError :=
  let sLen := s.length
  if (intSize = 32 ∧ 0 < sLen ∧ sLen < 10) ∨ (intSize = 64 ∧ 0 < sLen ∧ sLen < 19) then
    let signed := s.head? = some 45 ∨ s.head? = some 43
    let body := if signed then s.tail else s
    if signed ∧ body.length < 1 then (0, some .malformed)
    else
      match atoiFastLoop 0 body with
      | none => (0, some .malformed)
      | some n => (if s.head? = some 45 then wrapInt (-n) else n, none)
  else parseInt s

/-! ## `containerExec` -/

/-- What the `select` of `containerExec` receives: a value from the error
channel of the event subscription (possibly `nil`), or a completion event with
its attributes. -/
inductive Race where
  | errs (err : Option GoError)
  | msg (attributes : List (String × List Nat))
  deriving DecidableEq, Repr

/-- The outcomes of the calls and channel receives of one run of
`containerExec`.  For `race` and `copyErr`, `none` means that nothing is ever
received; `copyErr` is the error of the copy that the output relay passes to
`errors.WithStack` and sends on `outputErr` when it ends. -/
structure ExecOracle where
  execCreate : Except GoError String
  execAttach : Option GoError
  execStart : Option GoError
  race : Option Race
  copyErr : Option (Option GoError)

/-- A Go map lookup `m[key]` on a `map[string]string`: the empty string when
the key is missing. -/
def mapIndex (m : List (String × List Nat)) (key : String) : List Nat :=
  (m.lookup key).getD []

/-- The last two lines of `containerExec`, `err = <-outputErr; return status,
err`: the goroutine blocks until the output relay has sent its result, which
is `errors.WithStack` of the error of the copy. -/
def awaitOutput (o : ExecOracle) (status : Int) (trace : List Event) :
    Option (Int × Option GoError) × List Event :=
  match o.copyErr with
  | none => (none, trace)
  | some err => (some (status, withStack err), trace ++ [.recvOutputErr (withStack err)])

/-- The method `server.containerExec`: the result (`none` when the goroutine
blocks forever) and the trace. -/
def containerExec {K : Type} (s : Server K) (sess : Session K) (o : ExecOracle) (cid : String) :
    Option (Int × Option GoError) × List Event :=
  let tty := sess.tty
  let cmd := if sess.command.length = 0 then [s.shell] else sess.command
  let t1 : List Event := [.containerExecCreate cid cmd sess.environ tty]
  match o.execCreate with
  | .error err => (some (-1, withStack (some err)), t1)
  | .ok execid =>
    let t2 := t1 ++ [.containerExecAttach execid]
    match o.execAttach with
    | some err => (some (-1, withStack (some err)), t2)
    | none =>
      let t3 := t2 ++ [.goInputRelay, .goOutputRelay tty, .events cid, .containerExecStart execid]
      match o.execStart with
      | some err => (some (-1, withStack (some err)), t3)
      | none =>
        let t4 := t3 ++ (if tty then [.goHandleResize execid] else [])
        match o.race with
        | none => (none, t4)
        | some (.errs (some err)) =>
          (some (-1, withStack (some err)), t4 ++ [.recvErrs (some err)])
        | some (.errs none) => awaitOutput o (-1) (t4 ++ [.recvErrs none])
        | some (.msg attributes) =>
          let status := (atoi (mapIndex attributes "exitCode")).1
          awaitOutput o status (t4 ++ [.recvMsg attributes])

/-! ## `handleResize` -/

/-- Conversion of a Go `int` to `uint` on a 64-bit target. -/
def toUint (x : Int) : Nat :=
  (x % 2 ^ intSize).toNat

/-- The method `server.handleResize` on the windows that the resize channel
delivers before it is closed; `outcome i` is the result of the `i`-th resize
request, counted from `i`. -/
def handleResize (execid : String) (outcome : Nat → Option GoError) :
    Nat → List Window → List Event
  | _, [] => []
  | i, win :: rest =>
    let req := Event.containerExecResize execid
      { Height := toUint win.Height, Width := toUint win.Width }
    match outcome i with
    | some err => [req, .logPrintln err]
    | none => req :: handleResize execid outcome (i + 1) rest

/-! ## `handle` -/

/-- The statement `if err != nil { fmt.Printf("%+v\n", err) }` that follows
the call of `ensureContainerStarted` in `handle`. -/
def reportSetup : Option GoError → List Event
  | some e => [.printErr e]
  | none => []

/-- The statement `if err != nil && errors.Cause(err) != context.Canceled {
fmt.Printf("%+v\n", err) }` that follows the call of `containerExec` in
`handle`. -/
def reportBridge : Option GoError → List Event
  | some e => if cause e ≠ .canceled then [.printErr e] else []
  | none => []

/-- The method `server.handle`: the trace of the session and the state of the
daemon afterwards.  When `containerExec` blocks forever, so does `handle`,
and the trace stops there. -/
def handle {K : Type} (lib : KeyLib K) (s : Server K) (d : Docker) (sess : Session K)
    (o : ExecOracle) : List Event × Docker :=
  let name := containerName lib s sess.publicKey
  let connected : List Event :=
    [.printf ("client " ++ sess.remoteAddr ++ " connected to container " ++ name ++ "\n")]
  let deferred : List Event :=
    [.printf ("client " ++ sess.remoteAddr ++ " disconnected from container " ++ name ++ "\n")]
  match ensureContainerStarted d s.image name with
  | (err, d1, t1) =>
    match containerExec s sess o name with
    | (none, t2) => (connected ++ t1 ++ reportSetup err ++ t2, d1)
    | (some (status, err2), t2) =>
      (connected ++ t1 ++ reportSetup err ++ t2 ++ reportBridge err2 ++ [.exit status]
        ++ deferred, d1)

/-! ## Definitions that follow the wording of the specification -/

/-- The decimal string of a natural number, as bytes: no leading zero, and the
single digit `0` for zero. -/
def decimalNat (m : Nat) : List Nat :=
  if m = 0 then [48] else ((Nat.digits 10 m).reverse).map (fun d => d + 48)

/-- The decimal string of an integer, as bytes: a minus sign before the
digits of a negative number. -/
def decimalString (n : Int) : List Nat :=
  if n < 0 then 45 :: decimalNat n.natAbs else decimalNat n.natAbs

/-- The number that a string of decimal digits denotes, read from the left
with `a` as the value so far. -/
def digitsFrom (a : Nat) (bs : List Nat) : Nat :=
  bs.foldl (fun acc b => acc * 10 + (b - 48)) a

/-- A string of decimal digits: every byte is between `0` (48) and `9` (57). -/
def AllDigits (bs : List Nat) : Prop :=
  ∀ b ∈ bs, 48 ≤ b ∧ b ≤ 57

/-- The trace of `containerExec` up to its `select`, when the execution
context `execid` has been created, attached and started. -/
def startedTrace {K : Type} (s : Server K) (sess : Session K) (cid execid : String) :
    List Event :=
  [Event.containerExecCreate cid (if sess.command.length = 0 then [s.shell] else sess.command)
      sess.environ sess.tty, .containerExecAttach execid, .goInputRelay,
    .goOutputRelay sess.tty, .events cid, .containerExecStart execid]
  ++ (if sess.tty then [.goHandleResize execid] else [])

/-- The values that `strconv` returns together with an error: 0 with a syntax
error, the largest or the smallest `int` with a range error. -/
def ErrorValue (r : Int × Option NumError) : Prop :=
  r.2 ≠ none → r.1 = 0 ∨ r.1 = 2 ^ 63 - 1 ∨ r.1 = -(2 ^ 63)

/-- The command that `containerExec` runs: the command of the session, or the
shell when there is none. -/
def chosenCommand {K : Type} (s : Server K) (sess : Session K) : List String :=
  if sess.command.length = 0 then [s.shell] else sess.command

/-- The line that `handle` prints when the session ends. -/
def disconnectedLine {K : Type} (lib : KeyLib K) (s : Server K) (sess : Session K) : Event :=
  .printf ("client " ++ sess.remoteAddr ++ " disconnected from container "
    ++ containerName lib s sess.publicKey ++ "\n")

/-- The number of notifications that the resize relay forwards out of `n`
according to the specification: all of them when no request fails, and
otherwise those up to and including the first one whose request fails. -/
def forwardedCount (outcome : Nat → Option GoError) (n : Nat) : Nat :=
  match (List.range n).find? (fun i => (outcome i).isSome) with
  | some k => k + 1
  | none => n

/-- The resize requests in a trace, in order: exec id, width and height. -/
def resizeRequests (trace : List Event) : List (String × Nat × Nat) :=
  trace.filterMap fun e =>
    match e with
    | .containerExecResize execid opts => some (execid, opts.Width, opts.Height)
    | _ => none

/-- Whether an event is the receipt of the output relay's completion signal. -/
def Event.isRecvOutputErr : Event → Bool
  | .recvOutputErr _ => true
  | _ => false

/-- Whether an event is the call of `sess.Exit`. -/
def Event.isExit : Event → Bool
  | .exit _ => true
  | _ => false

/-! ## Example inputs -/

/-- A key library on keys that are numbers: equal keys are equal numbers. -/
def demoLib : KeyLib Nat where
  keysEqual := fun a b => a == b
  fingerprintLegacyMD5 := fun k => if k = 7 then "0a:1b:2c" else "ff:ee"

/-- An allow-list server with two entries. -/
def demoServer : Server Nat :=
  { image := "ubuntu", shell := "/bin/bash", keys := [("alice", 7), ("bob", 9)],
    wildcard := false }

/-- A wildcard server; its key table is empty, as `main` builds it. -/
def wildServer : Server Nat :=
  { image := "ubuntu", shell := "/bin/bash", keys := [], wildcard := true }

/-- A wildcard server with a non-empty key table. -/
def wildServerWithKeys : Server Nat :=
  { image := "ubuntu", shell := "/bin/bash", keys := [("alice", 7)], wildcard := true }

/-- A non-interactive session of the key 7 that runs `false`. -/
def demoSession : Session Nat :=
  { publicKey := 7, remoteAddr := "10.0.0.1:5000", command := ["false"], environ := [],
    tty := false }

/-- A run in which the command completes: the completion event wins the race
with the given attributes, and the output relay ends without error. -/
def completedRun (attributes : List (String × List Nat)) : ExecOracle :=
  { execCreate := .ok "e1", execAttach := none, execStart := none,
    race := some (.msg attributes), copyErr := some none }

/-- A run in which the container does not exist, so that creating the
execution context fails. -/
def noContainerRun : ExecOracle :=
  { execCreate := .error (.notFound "No such container: alice"), execAttach := none,
    execStart := none, race := none, copyErr := none }

/-- A run in which the client disconnects while the command runs: the event
subscription delivers `context.Canceled` on its error channel, and the copy of
the output relay ends with an error of the closed session. -/
def disconnectRun : ExecOracle :=
  { execCreate := .ok "e1", execAttach := none, execStart := none,
    race := some (.errs (some .canceled)), copyErr := some (some (.other "EOF")) }

/-- A daemon that has pulled `ubuntu` and has no units. -/
def freshDocker : Docker := { images := ["ubuntu"], units := [] }

/-- A daemon that has pulled no image and has no units. -/
def emptyDocker : Docker := { images := [], units := [] }

/-! ## Identity resolution -/

theorem authenticateLoop_iff {K : Type} (lib : KeyLib K) (key : K) (keys : List (String × K)) :
    authenticateLoop lib key keys = true ↔ ∃ entry ∈ keys, lib.keysEqual key entry.2 = true := by
  induction keys with
  | nil => simp [authenticateLoop]
  | cons e rest ih =>
    obtain ⟨c, pk⟩ := e
    by_cases h : lib.keysEqual key pk = true
    · simp [authenticateLoop, h]
    · simp [authenticateLoop, h, ih]

theorem replaceScan_colon (cs : List Char) :
    replaceScan [':'] [] 0 cs = cs.filter (fun c => c != ':') := by
  induction cs with
  | nil => simp [replaceScan]
  | cons c rest ih =>
    by_cases h : c = ':'
    · subst h
      simp [replaceScan, ih]
    · have h2 : ¬ (':' = c) := fun e => h e.symm
      simp [replaceScan, ih, h, h2]

theorem replaceAll_colon (s : String) :
    replaceAll s ":" "" = String.mk (s.data.filter (fun c => c != ':')) := by
  have h : (":" : String).data = [':'] := rfl
  have h0 : ("" : String).data = [] := rfl
  simp [replaceAll, h, h0, replaceScan_colon]

theorem ensureContainerStarted_trace_head (d : Docker) (image cid : String) :
    ∃ rest, (ensureContainerStarted d image cid).2.2 = Event.containerInspect cid :: rest := by
  unfold ensureContainerStarted
  dsimp only
  repeat' split
  all_goals exact ⟨_, rfl⟩

theorem handle_trace_head {K : Type} (lib : KeyLib K) (s : Server K) (d : Docker)
    (sess : Session K) (o : ExecOracle) :
    ∃ rest, (handle lib s d sess o).1 =
      Event.printf ("client " ++ sess.remoteAddr ++ " connected to container "
        ++ containerName lib s sess.publicKey ++ "\n")
      :: Event.containerInspect (containerName lib s sess.publicKey) :: rest := by
  obtain ⟨r, hr⟩ := ensureContainerStarted_trace_head d s.image (containerName lib s sess.publicKey)
  rcases h : ensureContainerStarted d s.image (containerName lib s sess.publicKey) with ⟨err, d1, t1⟩
  rw [h] at hr
  simp only at hr
  subst hr
  rcases h2 : containerExec s sess o (containerName lib s sess.publicKey) with ⟨res, t2⟩
  cases res with
  | none => exact ⟨_, by simp [handle, h, h2]; rfl⟩
  | some p =>
    obtain ⟨status, err2⟩ := p
    exact ⟨_, by simp [handle, h, h2]; rfl⟩

/-- C1: in allow-list mode (`wildcard = false`) `authenticate` accepts a key if
and only if some entry of the key table is key-equal to it; so a key that
matches no entry is rejected, and every key is rejected by an empty table. -/
theorem authenticate_allowlist_iff {K : Type} (lib : KeyLib K) (s : Server K)
    (remoteAddr : String) (k : K) (hmode : s.wildcard = false) :
    ((authenticate lib s remoteAddr k).1 = true ↔
        ∃ entry ∈ s.keys, lib.keysEqual k entry.2 = true) ∧
      ((∀ entry ∈ s.keys, lib.keysEqual k entry.2 = false) →
        (authenticate lib s remoteAddr k).1 = false) ∧
      (s.keys = [] → (authenticate lib s remoteAddr k).1 = false) := by
  have hiff : (authenticate lib s remoteAddr k).1 = true ↔
      ∃ entry ∈ s.keys, lib.keysEqual k entry.2 = true := by
    rw [← authenticateLoop_iff]
    unfold authenticate
    rw [hmode]
    by_cases h : authenticateLoop lib k s.keys = true <;> simp [h]
  refine ⟨hiff, ?_, ?_⟩
  · intro hno
    cases hv : (authenticate lib s remoteAddr k).1 with
    | false => rfl
    | true =>
      obtain ⟨entry, hmem, heq⟩ := hiff.mp hv
      rw [hno entry hmem] at heq
      exact absurd heq (by decide)
  · intro hempty
    cases hv : (authenticate lib s remoteAddr k).1 with
    | false => rfl
    | true =>
      obtain ⟨entry, hmem, _⟩ := hiff.mp hv
      rw [hempty] at hmem
      exact absurd hmem (List.not_mem_nil _)

/-- Witness of C1: the two-entry allow list accepts the key 9 of `bob` and
rejects the key 8, which matches no entry. -/
theorem authenticate_allowlist_iff_witness :
    demoServer.wildcard = false ∧
      (authenticate demoLib demoServer "10.0.0.1:5000" 9).1 = true ∧
      (authenticate demoLib demoServer "10.0.0.1:5000" 8).1 = false :=
  ⟨rfl,
    (authenticate_allowlist_iff demoLib demoServer "10.0.0.1:5000" 9 rfl).1.mpr
      ⟨("bob", 9), by decide, by decide⟩,
    (authenticate_allowlist_iff demoLib demoServer "10.0.0.1:5000" 8 rfl).2.1 (by decide)⟩

/-- C2: in wildcard mode `authenticate` accepts every key, and the container
name that `handle` computes and uses for its requests is `wildcard` followed by
the legacy MD5 fingerprint of the key with every colon removed; it is the same
for every key table, session and daemon state, so the same key always gets the
same name. -/
theorem wildcard_identity {K : Type} (lib : KeyLib K) (s s2 : Server K) (d : Docker)
    (sess sess2 : Session K) (o : ExecOracle) (remoteAddr : String)
    (hmode : s.wildcard = true) (hmode2 : s2.wildcard = true)
    (hkey : sess2.publicKey = sess.publicKey) :
    (authenticate lib s remoteAddr sess.publicKey).1 = true ∧
      containerName lib s sess.publicKey =
        "wildcard" ++ replaceAll (lib.fingerprintLegacyMD5 sess.publicKey) ":" "" ∧
      replaceAll (lib.fingerprintLegacyMD5 sess.publicKey) ":" "" =
        String.mk ((lib.fingerprintLegacyMD5 sess.publicKey).data.filter (fun c => c != ':')) ∧
      containerName lib s2 sess2.publicKey = containerName lib s sess.publicKey ∧
      Event.containerInspect
          ("wildcard" ++ replaceAll (lib.fingerprintLegacyMD5 sess.publicKey) ":" "")
        ∈ (handle lib s d sess o).1 := by
  have hname : ∀ t : Server K, t.wildcard = true → containerName lib t sess.publicKey =
      "wildcard" ++ replaceAll (lib.fingerprintLegacyMD5 sess.publicKey) ":" "" := by
    intro t ht
    simp [containerName, ht]
  refine ⟨by simp [authenticate, hmode], hname s hmode, replaceAll_colon _, ?_, ?_⟩
  · rw [hkey, hname s hmode, hname s2 hmode2]
  · obtain ⟨rest, hrest⟩ := handle_trace_head lib s d sess o
    rw [hrest, hname s hmode]
    simp

/-- Witness of C2: the key 7, whose fingerprint is `0a:1b:2c`, gets the name
`wildcard0a1b2c` from a wildcard server, whatever its key table holds. -/
theorem wildcard_identity_witness :
    (authenticate demoLib wildServer "10.0.0.1:5000" 7).1 = true ∧
      containerName demoLib wildServer 7 = "wildcard0a1b2c" ∧
      containerName demoLib wildServerWithKeys 7 = "wildcard0a1b2c" := by
  have h := wildcard_identity demoLib wildServer wildServerWithKeys freshDocker demoSession
    demoSession ⟨.ok "e1", none, none, none, none⟩ "10.0.0.1:5000" rfl rfl rfl
  refine ⟨h.1, ?_, ?_⟩
  · exact h.2.1.trans (by decide)
  · exact (h.2.2.2.1).trans (h.2.1.trans (by decide))

/-! ## Lifecycle assurance -/

theorem hasUnit_iff (d : Docker) (cid : String) :
    d.hasUnit cid = true ↔ ∃ u ∈ d.units, u.1 = cid := by
  simp [Docker.hasUnit]

theorem startMap_eq_self (cid : String) (units : List (String × Bool))
    (h : ∀ u ∈ units, u.1 = cid → u.2 = true) :
    units.map (fun u => if u.1 == cid then (u.1, true) else u) = units := by
  induction units with
  | nil => rfl
  | cons u rest ih =>
    have hrest := ih (fun v hv => h v (List.mem_cons_of_mem _ hv))
    rw [List.map_cons, hrest]
    by_cases hu : u.1 = cid
    · have := h u (List.mem_cons_self _ _) hu
      obtain ⟨a, b⟩ := u
      simp_all
    · simp [hu]

theorem startMap_running (cid : String) (units : List (String × Bool)) :
    ∀ u ∈ units.map (fun u => if u.1 == cid then (u.1, true) else u), u.1 = cid → u.2 = true := by
  intro u hu hcid
  rw [List.mem_map] at hu
  obtain ⟨v, _, hv⟩ := hu
  by_cases hvc : v.1 = cid
  · simp [hvc] at hv
    rw [← hv]
  · simp [hvc] at hv
    rw [← hv] at hcid
    exact absurd hcid hvc

theorem startMap_hasUnit (cid : String) (images : List String) (units : List (String × Bool))
    (h : (Docker.mk images units).hasUnit cid = true) :
    (Docker.mk images (units.map (fun u => if u.1 == cid then (u.1, true) else u))).hasUnit cid
      = true := by
  rw [hasUnit_iff] at h ⊢
  obtain ⟨u, hu, hcid⟩ := h
  refine ⟨(u.1, true), ?_, hcid⟩
  simp only [List.mem_map]
  exact ⟨u, hu, by simp [hcid]⟩

/-- A successful start leaves the unit existing and running. -/
theorem containerStart_ok (d d2 : Docker) (cid : String) (h : d.containerStart cid = (none, d2)) :
    d.hasUnit cid = true ∧ d2.images = d.images ∧
      d2.units = d.units.map (fun u => if u.1 == cid then (u.1, true) else u) ∧
      d2.hasUnit cid = true ∧ (∀ u ∈ d2.units, u.1 = cid → u.2 = true) := by
  unfold Docker.containerStart at h
  by_cases hu : d.hasUnit cid = true
  · rw [if_pos hu] at h
    have hd : d2 = { d with units := d.units.map (fun u => if u.1 == cid then (u.1, true) else u) } :=
      (congrArg Prod.snd h).symm
    subst hd
    exact ⟨hu, rfl, rfl, startMap_hasUnit cid d.images d.units hu, startMap_running cid d.units⟩
  · rw [if_neg hu] at h
    simp at h

/-- On a unit that exists and runs, `ensureContainerStarted` inspects, starts,
changes nothing and returns nil. -/
theorem ensureContainerStarted_running (d : Docker) (image cid : String)
    (hex : d.hasUnit cid = true) (hrun : ∀ u ∈ d.units, u.1 = cid → u.2 = true) :
    ensureContainerStarted d image cid =
      (none, d, [Event.containerInspect cid, Event.containerStart cid]) := by
  have hstart : d.containerStart cid = (none, d) := by
    unfold Docker.containerStart
    rw [if_pos hex, startMap_eq_self cid d.units hrun]
  unfold ensureContainerStarted
  simp [Docker.containerInspect, hex, isErrNotFound, hstart]

/-- A successful create appends the unit, stopped. -/
theorem containerCreate_ok (d d2 : Docker) (image cid : String)
    (h : d.containerCreate image cid = (none, d2)) :
    d.hasUnit cid = false ∧ d2 = { d with units := d.units ++ [(cid, false)] } := by
  unfold Docker.containerCreate at h
  split at h
  · simp at h
  · split at h
    · simp at h
    · rename_i hu
      exact ⟨by simpa using hu, (congrArg Prod.snd h).symm⟩

/-- The first call, case by case: what a successful `ensureContainerStarted`
issues and how it changes the daemon. -/
theorem ensureContainerStarted_ok (d d1 : Docker) (image cid : String) (t1 : List Event)
    (hfirst : ensureContainerStarted d image cid = (none, d1, t1)) :
    d1.hasUnit cid = true ∧ (∀ u ∈ d1.units, u.1 = cid → u.2 = true) ∧
      (d.hasUnit cid = false →
        t1 = [Event.containerInspect cid, Event.containerCreate image cid,
          Event.containerStart cid] ∧ d1.units = d.units ++ [(cid, true)]) ∧
      (d.hasUnit cid = true →
        t1 = [Event.containerInspect cid, Event.containerStart cid] ∧
          d1.units = d.units.map (fun u => if u.1 == cid then (u.1, true) else u)) ∧
      d1.images = d.images := by
  unfold ensureContainerStarted at hfirst
  by_cases hu : d.hasUnit cid = true
  · simp only [Docker.containerInspect, hu, if_true, isErrNotFound] at hfirst
    rcases hs : d.containerStart cid with ⟨_ | e, d2⟩
    · rw [hs] at hfirst
      simp only [Bool.false_eq_true, if_false, Prod.mk.injEq, true_and] at hfirst
      obtain ⟨hd, ht⟩ := hfirst
      subst hd
      obtain ⟨_, himg, hunits, hex, hrun⟩ := containerStart_ok d d2 cid hs
      exact ⟨hex, hrun, fun hne => absurd hu (by simp [hne]), fun _ => ⟨ht.symm, hunits⟩, himg⟩
    · rw [hs] at hfirst
      simp [withStack] at hfirst
  · have hu2 : d.hasUnit cid = false := by simpa using hu
    simp only [Docker.containerInspect, hu2, Bool.false_eq_true, if_false, isErrNotFound,
      if_true] at hfirst
    rcases hc : d.containerCreate image cid with ⟨_ | e, dc⟩
    · rw [hc] at hfirst
      simp only at hfirst
      obtain ⟨_, hdc⟩ := containerCreate_ok d dc image cid hc
      rcases hs : dc.containerStart cid with ⟨_ | e, d2⟩
      · rw [hs] at hfirst
        simp only [Prod.mk.injEq, true_and] at hfirst
        obtain ⟨hd, ht⟩ := hfirst
        subst hd
        obtain ⟨_, himg, hunits, hex, hrun⟩ := containerStart_ok dc d2 cid hs
        refine ⟨hex, hrun, fun _ => ⟨ht.symm, ?_⟩, fun h => absurd h hu, ?_⟩
        · rw [hunits, hdc]
          simp only [List.map_append, List.map_cons, List.map_nil, beq_self_eq_true, if_true]
          congr 1
          apply startMap_eq_self
          intro u hmem hcid
          have : d.hasUnit cid = true := (hasUnit_iff d cid).mpr ⟨u, hmem, hcid⟩
          exact absurd this hu
        · rw [himg, hdc]
      · rw [hs] at hfirst
        simp [withStack] at hfirst
    · rw [hc] at hfirst
      simp [withStack] at hfirst

/-- C6: lifecycle assurance is idempotent.  Over the runtime model, when a
call of `ensureContainerStarted` has returned nil, a second call on the same
identity (with any image) returns nil, issues an inspect and a start request
and no create request, and leaves the daemon (its units and their running
flags) as the first call left it.  The first call created and started an absent unit,
started an existing one, and changed nothing when the unit was running. -/
theorem ensureContainerStarted_idempotent (d d1 : Docker) (image image2 cid : String)
    (t1 : List Event) (hfirst : ensureContainerStarted d image cid = (none, d1, t1)) :
    ensureContainerStarted d1 image2 cid =
        (none, d1, [Event.containerInspect cid, Event.containerStart cid]) ∧
      (∀ img c, Event.containerCreate img c ∉ (ensureContainerStarted d1 image2 cid).2.2) ∧
      (d.hasUnit cid = false →
        t1 = [Event.containerInspect cid, Event.containerCreate image cid,
          Event.containerStart cid] ∧ d1.units = d.units ++ [(cid, true)]) ∧
      (d.hasUnit cid = true →
        t1 = [Event.containerInspect cid, Event.containerStart cid] ∧
          d1.units = d.units.map (fun u => if u.1 == cid then (u.1, true) else u)) ∧
      (d.hasUnit cid = true → (∀ u ∈ d.units, u.1 = cid → u.2 = true) → d1 = d) := by
  obtain ⟨hex, hrun, habsent, hpresent, himg⟩ := ensureContainerStarted_ok d d1 image cid t1 hfirst
  have hsecond := ensureContainerStarted_running d1 image2 cid hex hrun
  refine ⟨hsecond, ?_, habsent, hpresent, ?_⟩
  · intro img c
    rw [hsecond]
    simp
  · intro hu hr
    have h := ensureContainerStarted_running d image cid hu hr
    rw [h] at hfirst
    exact (congrArg (fun r => r.2.1) hfirst).symm

/-- Witness of C6: on a daemon without units the first call creates and starts
the unit `alice`, and the second call only inspects and starts it. -/
theorem ensureContainerStarted_idempotent_witness :
    ensureContainerStarted freshDocker "ubuntu" "alice" =
        (none, { images := ["ubuntu"], units := [("alice", true)] },
          [Event.containerInspect "alice", Event.containerCreate "ubuntu" "alice",
            Event.containerStart "alice"]) ∧
      ensureContainerStarted { images := ["ubuntu"], units := [("alice", true)] } "ubuntu" "alice" =
        (none, { images := ["ubuntu"], units := [("alice", true)] },
          [Event.containerInspect "alice", Event.containerStart "alice"]) :=
  ⟨by decide,
    (ensureContainerStarted_idempotent freshDocker
      { images := ["ubuntu"], units := [("alice", true)] } "ubuntu" "ubuntu" "alice"
      [Event.containerInspect "alice", Event.containerCreate "ubuntu" "alice",
        Event.containerStart "alice"] (by decide)).1⟩

/-! ## The resize relay -/

theorem forwardedCount_succ_fail (outcome : Nat → Option GoError) (n : Nat) (err : GoError)
    (h : outcome 0 = some err) : forwardedCount outcome (n + 1) = 1 := by
  simp [forwardedCount, List.range_succ_eq_map, h]

theorem forwardedCount_succ_ok (outcome : Nat → Option GoError) (n : Nat)
    (h : outcome 0 = none) :
    forwardedCount outcome (n + 1) = forwardedCount (fun j => outcome (j + 1)) n + 1 := by
  simp only [forwardedCount, List.range_succ_eq_map, List.find?_cons, h, Option.isSome_none,
    List.find?_map]
  cases hf : List.find? ((fun i => (outcome i).isSome) ∘ Nat.succ) (List.range n) with
  | none =>
    have : List.find? (fun i => (outcome (i + 1)).isSome) (List.range n) = none := hf
    simp [this]
  | some k =>
    have : List.find? (fun i => (outcome (i + 1)).isSome) (List.range n) = some k := hf
    simp [this]

theorem handleResize_requests (execid : String) (wins : List Window) :
    ∀ (outcome : Nat → Option GoError) (i : Nat),
      resizeRequests (handleResize execid outcome i wins) =
        (wins.take (forwardedCount (fun j => outcome (j + i)) wins.length)).map
          (fun w => (execid, toUint w.Width, toUint w.Height)) := by
  induction wins with
  | nil => intro outcome i; simp [handleResize, resizeRequests]
  | cons w rest ih =>
    intro outcome i
    cases h : outcome i with
    | some err =>
      have hc := forwardedCount_succ_fail (fun j => outcome (j + i)) rest.length err
        (by simpa using h)
      simp only [List.length_cons, hc]
      simp [handleResize, h, resizeRequests]
    | none =>
      have hc := forwardedCount_succ_ok (fun j => outcome (j + i)) rest.length (by simpa using h)
      have ih2 := ih outcome (i + 1)
      simp only [List.length_cons, hc, List.take_succ_cons, List.map_cons]
      have hfun : (fun j => outcome (j + 1 + i)) = (fun j => outcome (j + (i + 1))) := by
        funext j
        congr 1
        omega
      rw [hfun, ← ih2]
      simp [handleResize, h, resizeRequests]

theorem toUint_of_nonneg (x : Int) (h0 : 0 ≤ x) (h1 : x < 2 ^ 63) : (toUint x : Int) = x := by
  unfold toUint intSize
  have hlt : x < 2 ^ 64 := by omega
  rw [Int.emod_eq_of_lt h0 hlt]
  exact Int.toNat_of_nonneg h0

theorem handleResize_logs_failure (execid : String) (wins : List Window) :
    ∀ (outcome : Nat → Option GoError) (i k : Nat) (err : GoError), k < wins.length →
      outcome (i + k) = some err → (∀ j, j < k → outcome (i + j) = none) →
      (handleResize execid outcome i wins).getLast? = some (Event.logPrintln err) := by
  induction wins with
  | nil => intro outcome i k err hk; simp at hk
  | cons w rest ih =>
    intro outcome i k err hk hfail hbefore
    cases k with
    | zero =>
      have h : outcome i = some err := by simpa using hfail
      simp [handleResize, h]
    | succ k =>
      have h : outcome i = none := by simpa using hbefore 0 (Nat.succ_pos k)
      have hk2 : k < rest.length := by simpa using hk
      have hrec := ih outcome (i + 1) k err hk2
        (by rw [← hfail]; congr 1; omega)
        (fun j hj => by rw [← hbefore (j + 1) (by omega)]; congr 1; omega)
      simp only [handleResize, h]
      rw [List.getLast?_cons, hrec]
      rfl

theorem handleResize_no_log (execid : String) (wins : List Window) :
    ∀ (outcome : Nat → Option GoError) (i : Nat),
      (∀ j, j < wins.length → outcome (i + j) = none) →
      ∀ err, Event.logPrintln err ∉ handleResize execid outcome i wins := by
  induction wins with
  | nil => intro outcome i _ err; simp [handleResize]
  | cons w rest ih =>
    intro outcome i hall err
    have h : outcome i = none := by simpa using hall 0 (by simp)
    have hrec := ih outcome (i + 1)
      (fun j hj => by rw [← hall (j + 1) (by simpa using hj)]; congr 1; omega) err
    simp only [handleResize, h]
    simp [hrec]

/-- C10: resize forwarding.  For every list of window changes that the resize
channel delivers and every outcome of the requests, `handleResize` issues
resize requests for the given exec id that carry the width and the height of
the first, second, ... window in that order, each once, up to and including
the first request that fails, or all of them when none fails.  The error of a
failing request is logged as the last action, and nothing is logged when no
request fails.  The `uint` conversion keeps every non-negative dimension. -/
theorem handleResize_forwards (execid : String) (outcome : Nat → Option GoError)
    (wins : List Window) :
    resizeRequests (handleResize execid outcome 0 wins) =
        (wins.take (forwardedCount outcome wins.length)).map
          (fun w => (execid, toUint w.Width, toUint w.Height)) ∧
      (∀ k err, k < wins.length → outcome k = some err → (∀ j, j < k → outcome j = none) →
        (handleResize execid outcome 0 wins).getLast? = some (Event.logPrintln err)) ∧
      ((∀ j, j < wins.length → outcome j = none) →
        ∀ err, Event.logPrintln err ∉ handleResize execid outcome 0 wins) ∧
      (∀ w ∈ wins, 0 ≤ w.Width → w.Width < 2 ^ 63 → 0 ≤ w.Height → w.Height < 2 ^ 63 →
        (toUint w.Width : Int) = w.Width ∧ (toUint w.Height : Int) = w.Height) := by
  refine ⟨?_, ?_, ?_, ?_⟩
  · simpa using handleResize_requests execid wins outcome 0
  · intro k err hk hfail hbefore
    exact handleResize_logs_failure execid wins outcome 0 k err hk (by simpa using hfail)
      (fun j hj => by simpa using hbefore j hj)
  · intro hall err
    exact handleResize_no_log execid wins outcome 0 (fun j hj => by simpa using hall j hj) err
  · intro w _ hw0 hw1 hh0 hh1
    exact ⟨toUint_of_nonneg _ hw0 hw1, toUint_of_nonneg _ hh0 hh1⟩

/-- Witness of C10: of three window changes, with the second request failing,
the first two are forwarded and the third is not. -/
theorem handleResize_forwards_witness :
    resizeRequests (handleResize "e1"
        (fun i => if i = 1 then some (GoError.other "gone") else none) 0
        [⟨80, 24⟩, ⟨100, 30⟩, ⟨120, 40⟩]) = [("e1", 80, 24), ("e1", 100, 30)] :=
  (handleResize_forwards "e1" (fun i => if i = 1 then some (GoError.other "gone") else none)
    [⟨80, 24⟩, ⟨100, 30⟩, ⟨120, 40⟩]).1.trans (by decide)

/-! ## `strconv.Atoi` on decimal strings -/

theorem wrapInt_of_range (x : Int) (h0 : -(2 ^ 63) ≤ x) (h1 : x < 2 ^ 63) : wrapInt x = x := by
  unfold wrapInt intSize
  norm_num at h0 h1 ⊢
  omega

theorem wrapInt_two_pow : wrapInt (2 ^ 63) = -(2 ^ 63) := by
  unfold wrapInt intSize
  norm_num

theorem digitsFrom_cons (a b : Nat) (bs : List Nat) :
    digitsFrom a (b :: bs) = digitsFrom (a * 10 + (b - 48)) bs := rfl

theorem digitsFrom_ge (bs : List Nat) : ∀ a, a ≤ digitsFrom a bs := by
  induction bs with
  | nil => intro a; exact Nat.le_refl a
  | cons b rest ih =>
    intro a
    rw [digitsFrom_cons]
    have := ih (a * 10 + (b - 48))
    omega

theorem digitsFrom_lt (bs : List Nat) (hd : AllDigits bs) :
    ∀ a, digitsFrom a bs < (a + 1) * 10 ^ bs.length := by
  induction bs with
  | nil => intro a; simp [digitsFrom]
  | cons b rest ih =>
    intro a
    rw [digitsFrom_cons]
    have hb := hd b (List.mem_cons_self _ _)
    have h := ih (fun c hc => hd c (List.mem_cons_of_mem _ hc)) (a * 10 + (b - 48))
    have hle : (a * 10 + (b - 48) + 1) * 10 ^ rest.length ≤ (a + 1) * 10 * 10 ^ rest.length :=
      Nat.mul_le_mul_right _ (by omega)
    rw [List.length_cons, pow_succ]
    calc digitsFrom (a * 10 + (b - 48)) rest
        < (a * 10 + (b - 48) + 1) * 10 ^ rest.length := h
      _ ≤ (a + 1) * 10 * 10 ^ rest.length := hle
      _ = (a + 1) * (10 ^ rest.length * 10) := by ring

theorem atoiFastLoop_digits (bs : List Nat) (hd : AllDigits bs) :
    ∀ a : Nat, digitsFrom a bs < 2 ^ 63 →
      atoiFastLoop (a : Int) bs = some ((digitsFrom a bs : Nat) : Int) := by
  induction bs with
  | nil => intro a _; rfl
  | cons b rest ih =>
    intro a hlt
    rw [digitsFrom_cons] at hlt ⊢
    have hb := hd b (List.mem_cons_self _ _)
    have hge := digitsFrom_ge rest (a * 10 + (b - 48))
    have hch : (b + 256 - 48) % 256 = b - 48 := by omega
    have hsmall : a * 10 + (b - 48) < 2 ^ 63 := lt_of_le_of_lt hge hlt
    have hwrap : wrapInt ((a : Int) * 10 + ((b - 48 : Nat) : Int)) =
        ((a * 10 + (b - 48) : Nat) : Int) := by
      rw [wrapInt_of_range]
      · push_cast; rfl
      · have : (0 : Int) ≤ (a : Int) * 10 + ((b - 48 : Nat) : Int) := by positivity
        norm_num
        omega
      · have : ((a * 10 + (b - 48) : Nat) : Int) < 2 ^ 63 := by exact_mod_cast hsmall
        push_cast at this
        exact this
    unfold atoiFastLoop
    simp only [hch]
    rw [if_neg (by omega), hwrap]
    exact ih (fun c hc => hd c (List.mem_cons_of_mem _ hc)) _ hlt

theorem parseUintLoop_digits (bs : List Nat) (hd : AllDigits bs) :
    ∀ a : Nat, digitsFrom a bs < 2 ^ 64 → parseUintLoop a bs = (digitsFrom a bs, none) := by
  induction bs with
  | nil => intro a _; rfl
  | cons b rest ih =>
    intro a hlt
    rw [digitsFrom_cons] at hlt ⊢
    have hb := hd b (List.mem_cons_self _ _)
    have hge := digitsFrom_ge rest (a * 10 + (b - 48))
    have hsmall : a * 10 + (b - 48) < 2 ^ 64 := lt_of_le_of_lt hge hlt
    norm_num at hsmall
    unfold parseUintLoop
    rw [if_pos hb]
    have hcut : ¬ (a ≥ (2 ^ 64 - 1) / 10 + 1) := by norm_num; omega
    rw [if_neg hcut]
    have h10 : a * 10 % 2 ^ 64 = a * 10 := by norm_num; omega
    have h1 : (a * 10 + (b - 48)) % 2 ^ 64 = a * 10 + (b - 48) := by norm_num; omega
    simp only [h10, h1]
    rw [if_neg (by norm_num; omega)]
    exact ih (fun c hc => hd c (List.mem_cons_of_mem _ hc)) _ hlt

/-- On a non-empty string of decimal digits whose value fits a Go `int`,
`strconv.Atoi` returns the value and no error. -/
theorem atoi_digits (bs : List Nat) (hne : bs ≠ []) (hd : AllDigits bs)
    (hv : digitsFrom 0 bs < 2 ^ 63) : atoi bs = (((digitsFrom 0 bs : Nat) : Int), none) := by
  obtain ⟨b, rest, rfl⟩ := List.exists_cons_of_ne_nil hne
  have hb := hd b (List.mem_cons_self _ _)
  have h45 : ¬ (b = 45) := by omega
  have h43 : ¬ (b = 43) := by omega
  have hfast := atoiFastLoop_digits (b :: rest) hd 0 hv
  have hslow := parseUintLoop_digits (b :: rest) hd 0 (lt_trans hv (by norm_num))
  have hvz : ((digitsFrom 0 (b :: rest) : Nat) : Int) < 2 ^ 63 := by exact_mod_cast hv
  have hwrap : wrapInt ((digitsFrom 0 (b :: rest) : Nat) : Int) = (digitsFrom 0 (b :: rest) : Nat) :=
    wrapInt_of_range _ (by have : (0 : Int) ≤ (digitsFrom 0 (b :: rest) : Nat) := by positivity
                           norm_num; omega) hvz
  unfold atoi
  by_cases hlen : (b :: rest).length < 19
  · have hcond : (intSize = 32 ∧ 0 < (b :: rest).length ∧ (b :: rest).length < 10) ∨
        (intSize = 64 ∧ 0 < (b :: rest).length ∧ (b :: rest).length < 19) :=
      Or.inr ⟨rfl, by simp, hlen⟩
    simp only [if_pos hcond]
    simp only [List.head?_cons, Option.some.injEq, h45, h43, or_self, if_false, false_and]
    have hfast2 : atoiFastLoop 0 (b :: rest) = some ((digitsFrom 0 (b :: rest) : Nat) : Int) := by
      simpa using hfast
    rw [hfast2]
  · have hcond : ¬ ((intSize = 32 ∧ 0 < (b :: rest).length ∧ (b :: rest).length < 10) ∨
        (intSize = 64 ∧ 0 < (b :: rest).length ∧ (b :: rest).length < 19)) := by
      rintro (⟨h32, _⟩ | ⟨_, _, h⟩)
      · simp [intSize] at h32
      · exact hlen h
    simp only [if_neg hcond]
    unfold parseInt
    simp only [if_neg hne, List.head?_cons, Option.some.injEq, h45, h43, or_self, if_false]
    unfold parseUint
    simp only [if_neg hne, hslow]
    have hcut : ¬ (digitsFrom 0 (b :: rest) ≥ 2 ^ (intSize - 1)) := by
      simp only [intSize]
      norm_num at hv ⊢
      omega
    simp [hcut, hwrap]

/-- On a minus sign followed by a non-empty string of decimal digits whose
negated value fits a Go `int`, `strconv.Atoi` returns the negated value and no
error. -/
theorem atoi_neg_digits (bs : List Nat) (hne : bs ≠ []) (hd : AllDigits bs)
    (hv : digitsFrom 0 bs ≤ 2 ^ 63) :
    atoi (45 :: bs) = (-((digitsFrom 0 bs : Nat) : Int), none) := by
  have hvz : ((digitsFrom 0 bs : Nat) : Int) ≤ 2 ^ 63 := by exact_mod_cast hv
  have hv0 : (0 : Int) ≤ (digitsFrom 0 bs : Nat) := by positivity
  have hnegwrap : wrapInt (-((digitsFrom 0 bs : Nat) : Int)) = -((digitsFrom 0 bs : Nat) : Int) :=
    wrapInt_of_range _ (by omega) (by norm_num; omega)
  have hcons : (45 :: bs) ≠ [] := List.cons_ne_nil _ _
  have hlen0 : 0 < bs.length := List.length_pos.mpr hne
  unfold atoi
  by_cases hlen : (45 :: bs).length < 19
  · have hcond : (intSize = 32 ∧ 0 < (45 :: bs).length ∧ (45 :: bs).length < 10) ∨
        (intSize = 64 ∧ 0 < (45 :: bs).length ∧ (45 :: bs).length < 19) :=
      Or.inr ⟨rfl, by simp, hlen⟩
    have hshort : bs.length ≤ 17 := by
      simp only [List.length_cons] at hlen
      omega
    have hpow : digitsFrom 0 bs < 2 ^ 63 := by
      have h1 := digitsFrom_lt bs hd 0
      have h2 : (10 : Nat) ^ bs.length ≤ 10 ^ 17 := Nat.pow_le_pow_right (by norm_num) hshort
      have h3 : (10 : Nat) ^ 17 < 2 ^ 63 := by norm_num
      omega
    have hfast : atoiFastLoop 0 bs = some ((digitsFrom 0 bs : Nat) : Int) := by
      simpa using atoiFastLoop_digits bs hd 0 hpow
    simp only [if_pos hcond]
    simp only [List.head?_cons, true_or, if_true, List.tail_cons, true_and]
    rw [if_neg (by omega), hfast]
    simp only [hnegwrap]
  · have hcond : ¬ ((intSize = 32 ∧ 0 < (45 :: bs).length ∧ (45 :: bs).length < 10) ∨
        (intSize = 64 ∧ 0 < (45 :: bs).length ∧ (45 :: bs).length < 19)) := by
      rintro (⟨h32, _⟩ | ⟨_, _, h⟩)
      · simp [intSize] at h32
      · exact hlen h
    have hslow := parseUintLoop_digits bs hd 0 (lt_of_le_of_lt hv (by norm_num))
    simp only [if_neg hcond]
    unfold parseInt
    simp only [if_neg hcons, List.head?_cons, or_true, if_true, List.tail_cons]
    unfold parseUint
    simp only [if_neg hne, hslow]
    have hcut : ¬ (digitsFrom 0 bs > 2 ^ (intSize - 1)) := by
      simp only [intSize]
      norm_num at hv ⊢
      omega
    simp only [not_true_eq_false, false_and, if_false, true_and, if_neg hcut]
    rcases Nat.lt_or_ge (digitsFrom 0 bs) (2 ^ 63) with hlt | hge
    · have hltz : ((digitsFrom 0 bs : Nat) : Int) < 2 ^ 63 := by exact_mod_cast hlt
      rw [wrapInt_of_range _ (by omega) hltz, hnegwrap]
    · have heq : digitsFrom 0 bs = 2 ^ 63 := Nat.le_antisymm hv hge
      have heqz : ((digitsFrom 0 bs : Nat) : Int) = 2 ^ 63 := by exact_mod_cast heq
      rw [heqz, wrapInt_two_pow, neg_neg, wrapInt_two_pow]

theorem digitsFrom_append (a : Nat) (xs ys : List Nat) :
    digitsFrom a (xs ++ ys) = digitsFrom (digitsFrom a xs) ys := by
  simp [digitsFrom, List.foldl_append]

theorem digitsFrom_reverse_digits (L : List Nat) :
    digitsFrom 0 ((L.reverse).map (fun d => d + 48)) = Nat.ofDigits 10 L := by
  induction L with
  | nil => rfl
  | cons d t ih =>
    rw [List.reverse_cons, List.map_append, digitsFrom_append, ih, Nat.ofDigits_cons]
    simp only [List.map_cons, List.map_nil, digitsFrom, List.foldl_cons, List.foldl_nil]
    omega

theorem decimalNat_ne_nil (m : Nat) : decimalNat m ≠ [] := by
  unfold decimalNat
  split
  · simp
  · rename_i h
    simpa using Nat.digits_ne_nil_iff_ne_zero.mpr h

theorem decimalNat_allDigits (m : Nat) : AllDigits (decimalNat m) := by
  unfold decimalNat
  split
  · intro b hb
    simp at hb
    omega
  · intro b hb
    simp only [List.mem_map, List.mem_reverse] at hb
    obtain ⟨d, hd, rfl⟩ := hb
    have := Nat.digits_lt_base (by norm_num : 1 < 10) hd
    omega

theorem digitsFrom_decimalNat (m : Nat) : digitsFrom 0 (decimalNat m) = m := by
  unfold decimalNat
  split
  · rename_i h
    subst h
    rfl
  · rw [digitsFrom_reverse_digits, Nat.ofDigits_digits]

/-- The function `strconv.Atoi` reads back the decimal string of every Go
`int`. -/
theorem atoi_decimalString (n : Int) (h0 : -(2 ^ 63) ≤ n) (h1 : n < 2 ^ 63) :
    atoi (decimalString n) = (n, none) := by
  unfold decimalString
  by_cases hneg : n < 0
  · rw [if_pos hneg, atoi_neg_digits _ (decimalNat_ne_nil _) (decimalNat_allDigits _),
      digitsFrom_decimalNat]
    · congr 1
      omega
    · rw [digitsFrom_decimalNat]
      have : ((n.natAbs : Nat) : Int) ≤ 2 ^ 63 := by omega
      exact_mod_cast this
  · rw [if_neg hneg, atoi_digits _ (decimalNat_ne_nil _) (decimalNat_allDigits _),
      digitsFrom_decimalNat]
    · congr 1
      omega
    · rw [digitsFrom_decimalNat]
      have : ((n.natAbs : Nat) : Int) < 2 ^ 63 := by omega
      exact_mod_cast this

/-! ## The exec bridge -/

theorem containerExec_errs {K : Type} (s : Server K) (sess : Session K) (o : ExecOracle)
    (cid execid : String) (err : GoError) (hcreate : o.execCreate = .ok execid)
    (hattach : o.execAttach = none) (hstart : o.execStart = none)
    (hrace : o.race = some (.errs (some err))) :
    containerExec s sess o cid =
      (some (-1, some (.withStack err)),
        startedTrace s sess cid execid ++ [Event.recvErrs (some err)]) := by
  simp [containerExec, hcreate, hattach, hstart, hrace, startedTrace, withStack]

theorem containerExec_errs_nil {K : Type} (s : Server K) (sess : Session K) (o : ExecOracle)
    (cid execid : String) (hcreate : o.execCreate = .ok execid)
    (hattach : o.execAttach = none) (hstart : o.execStart = none)
    (hrace : o.race = some (.errs none)) :
    containerExec s sess o cid =
      awaitOutput o (-1) (startedTrace s sess cid execid ++ [Event.recvErrs none]) := by
  simp [containerExec, hcreate, hattach, hstart, hrace, startedTrace]

theorem containerExec_msg {K : Type} (s : Server K) (sess : Session K) (o : ExecOracle)
    (cid execid : String) (attributes : List (String × List Nat))
    (hcreate : o.execCreate = .ok execid) (hattach : o.execAttach = none)
    (hstart : o.execStart = none) (hrace : o.race = some (.msg attributes)) :
    containerExec s sess o cid =
      awaitOutput o (atoi (mapIndex attributes "exitCode")).1
        (startedTrace s sess cid execid ++ [Event.recvMsg attributes]) := by
  simp [containerExec, hcreate, hattach, hstart, hrace, startedTrace]

/-- C7: exit resolution from a completion event.  When the execution context
has been created, attached and started, the completion event wins the race
with the decimal string of a Go `int` `n` as its `exitCode` attribute, and the
output relay ends, `containerExec` returns the status `n` and, as its error,
what the output relay sent on `outputErr`. -/
theorem containerExec_completion_status {K : Type} (s : Server K) (sess : Session K)
    (o : ExecOracle) (cid execid : String) (attributes : List (String × List Nat)) (n : Int)
    (copyErr : Option GoError) (h0 : -(2 ^ 63) ≤ n) (h1 : n < 2 ^ 63)
    (hcreate : o.execCreate = .ok execid) (hattach : o.execAttach = none)
    (hstart : o.execStart = none) (hrace : o.race = some (.msg attributes))
    (hattr : mapIndex attributes "exitCode" = decimalString n)
    (hcopy : o.copyErr = some copyErr) :
    (containerExec s sess o cid).1 = some (n, withStack copyErr) := by
  rw [containerExec_msg s sess o cid execid attributes hcreate hattach hstart hrace, hattr,
    atoi_decimalString n h0 h1]
  simp [awaitOutput, hcopy]

/-- Witness of C7: the attribute `0` resolves to the status 0, and the
attribute `1` (the exit code of `false`) to the status 1. -/
theorem containerExec_completion_status_witness :
    (containerExec demoServer demoSession (completedRun [("exitCode", [48])]) "alice").1 =
        some (0, none) ∧
      (containerExec demoServer demoSession (completedRun [("exitCode", [49])]) "alice").1 =
        some (1, none) :=
  ⟨containerExec_completion_status demoServer demoSession (completedRun [("exitCode", [48])])
      "alice" "e1" [("exitCode", [48])] 0 none (by norm_num) (by norm_num) rfl rfl rfl rfl
      (by decide) rfl,
    containerExec_completion_status demoServer demoSession (completedRun [("exitCode", [49])])
      "alice" "e1" [("exitCode", [49])] 1 none (by norm_num) (by norm_num) rfl rfl rfl rfl
      (by simp [mapIndex, decimalString, decimalNat]) rfl⟩

/-- C8: exit resolution on subscription failure.  When the execution context
has been created, attached and started and an error arrives on the error
channel of the event subscription before any completion event, `containerExec`
returns the unknown status -1 and a non-nil error that wraps the received one,
whatever the output relay does. -/
theorem containerExec_subscription_failure {K : Type} (s : Server K) (sess : Session K)
    (o : ExecOracle) (cid execid : String) (err : GoError)
    (hcreate : o.execCreate = .ok execid) (hattach : o.execAttach = none)
    (hstart : o.execStart = none) (hrace : o.race = some (.errs (some err))) :
    (containerExec s sess o cid).1 = some (-1, some (.withStack err)) ∧
      cause (.withStack err) = cause err := by
  rw [containerExec_errs s sess o cid execid err hcreate hattach hstart hrace]
  exact ⟨rfl, rfl⟩

/-- Witness of C8: a cancelled subscription resolves to -1 with the wrapped
error. -/
theorem containerExec_subscription_failure_witness :
    (containerExec demoServer demoSession
        { execCreate := .ok "e1", execAttach := none, execStart := none,
          race := some (.errs (some .canceled)), copyErr := none } "alice").1 =
      some (-1, some (.withStack .canceled)) :=
  (containerExec_subscription_failure demoServer demoSession
    { execCreate := .ok "e1", execAttach := none, execStart := none,
      race := some (.errs (some .canceled)), copyErr := none } "alice" "e1" .canceled
    rfl rfl rfl rfl).1

theorem parseInt_errorValue (s : List Nat) : ErrorValue (parseInt s) := by
  unfold parseInt
  dsimp only
  repeat' split
  all_goals simp [ErrorValue, intSize]

theorem atoi_errorValue (s : List Nat) : ErrorValue (atoi s) := by
  unfold atoi
  dsimp only
  split
  · repeat' split
    all_goals simp [ErrorValue]
  · exact parseInt_errorValue s

theorem atoi_nil : atoi [] = (0, some NumError.malformed) := by decide

/-- C3: exit resolution with an unparsable exit code.  When the completion
event wins the race and `strconv.Atoi` rejects its `exitCode` attribute,
`containerExec` returns what `Atoi` returned next to its error, which replaces
the initial -1: the status is 0, the largest or the smallest `int`, never -1,
and it is 0 when the attribute is missing. -/
theorem containerExec_unparsable_status {K : Type} (s : Server K) (sess : Session K)
    (o : ExecOracle) (cid execid : String) (attributes : List (String × List Nat))
    (copyErr : Option GoError) (hcreate : o.execCreate = .ok execid)
    (hattach : o.execAttach = none) (hstart : o.execStart = none)
    (hrace : o.race = some (.msg attributes)) (hcopy : o.copyErr = some copyErr)
    (hbad : (atoi (mapIndex attributes "exitCode")).2 ≠ none) :
    ∃ status, (containerExec s sess o cid).1 = some (status, withStack copyErr) ∧
      status ≠ -1 ∧ (status = 0 ∨ status = 2 ^ 63 - 1 ∨ status = -(2 ^ 63)) ∧
      (attributes.lookup "exitCode" = none → status = 0) := by
  refine ⟨(atoi (mapIndex attributes "exitCode")).1, ?_, ?_, atoi_errorValue _ hbad, ?_⟩
  · rw [containerExec_msg s sess o cid execid attributes hcreate hattach hstart hrace]
    simp [awaitOutput, hcopy]
  · rcases atoi_errorValue _ hbad with h | h | h <;> rw [h] <;> norm_num
  · intro hmiss
    simp [mapIndex, hmiss, atoi_nil]

/-- Witness of C3: a completion event without an `exitCode` attribute, one
with an empty attribute and one with the attribute `x` resolve to the status 0
and not to -1. -/
theorem containerExec_unparsable_status_witness :
    (containerExec demoServer demoSession (completedRun []) "alice").1 = some (0, none) ∧
      (containerExec demoServer demoSession (completedRun [("exitCode", [])]) "alice").1 =
        some (0, none) ∧
      (containerExec demoServer demoSession (completedRun [("exitCode", [120])]) "alice").1 =
        some (0, none) := by
  obtain ⟨status, hres, _, _, hzero⟩ :=
    containerExec_unparsable_status demoServer demoSession (completedRun []) "alice" "e1" []
      none rfl rfl rfl rfl rfl (by decide)
  refine ⟨?_, by decide, by decide⟩
  rw [hres, hzero rfl]
  rfl

/-! ## The session handler -/

theorem containerExec_trace_head {K : Type} (s : Server K) (sess : Session K) (o : ExecOracle)
    (cid : String) :
    ∃ rest, (containerExec s sess o cid).2 =
      Event.containerExecCreate cid (chosenCommand s sess) sess.environ sess.tty :: rest := by
  unfold containerExec chosenCommand awaitOutput
  dsimp only
  repeat' split
  all_goals exact ⟨_, rfl⟩

theorem handle_returned {K : Type} (lib : KeyLib K) (s : Server K) (d d1 : Docker)
    (sess : Session K) (o : ExecOracle) (err1 err2 : Option GoError) (t1 t2 : List Event)
    (status : Int)
    (hens : ensureContainerStarted d s.image (containerName lib s sess.publicKey) = (err1, d1, t1))
    (hexec : containerExec s sess o (containerName lib s sess.publicKey) =
      (some (status, err2), t2)) :
    (handle lib s d sess o).1 =
      [Event.printf ("client " ++ sess.remoteAddr ++ " connected to container "
        ++ containerName lib s sess.publicKey ++ "\n")] ++ t1
      ++ reportSetup err1 ++ t2 ++ reportBridge err2
      ++ [Event.exit status, disconnectedLine lib s sess] := by
  simp [handle, hens, hexec, disconnectedLine]

theorem handle_blocked {K : Type} (lib : KeyLib K) (s : Server K) (d d1 : Docker)
    (sess : Session K) (o : ExecOracle) (err1 : Option GoError) (t1 t2 : List Event)
    (hens : ensureContainerStarted d s.image (containerName lib s sess.publicKey) = (err1, d1, t1))
    (hexec : containerExec s sess o (containerName lib s sess.publicKey) = (none, t2)) :
    (handle lib s d sess o).1 =
      [Event.printf ("client " ++ sess.remoteAddr ++ " connected to container "
        ++ containerName lib s sess.publicKey ++ "\n")] ++ t1
      ++ reportSetup err1 ++ t2 := by
  simp [handle, hens, hexec]

/-- C4: setup errors and the session.  When `ensureContainerStarted` returns
an error, `handle` prints it and then goes on to `containerExec`: the next
action after the report is the request that creates an execution context in
that container. -/
theorem handle_setup_error_continues {K : Type} (lib : KeyLib K) (s : Server K)
    (d d1 : Docker) (sess : Session K) (o : ExecOracle) (e : GoError) (t1 : List Event)
    (hens : ensureContainerStarted d s.image (containerName lib s sess.publicKey) =
      (some e, d1, t1)) :
    ∃ pre post, (handle lib s d sess o).1 =
      pre ++ [Event.printErr e,
        Event.containerExecCreate (containerName lib s sess.publicKey) (chosenCommand s sess)
          sess.environ sess.tty] ++ post := by
  obtain ⟨rest, hrest⟩ := containerExec_trace_head s sess o (containerName lib s sess.publicKey)
  rcases hexec : containerExec s sess o (containerName lib s sess.publicKey) with ⟨res, t2⟩
  rw [hexec] at hrest
  simp only at hrest
  subst hrest
  cases res with
  | none =>
    rw [handle_blocked lib s d d1 sess o (some e) t1 _ hens hexec]
    exact ⟨Event.printf ("client " ++ sess.remoteAddr ++ " connected to container "
      ++ containerName lib s sess.publicKey ++ "\n") :: t1, rest, by simp [reportSetup]⟩
  | some p =>
    obtain ⟨status, err2⟩ := p
    rw [handle_returned lib s d d1 sess o (some e) err2 t1 _ status hens hexec]
    exact ⟨Event.printf ("client " ++ sess.remoteAddr ++ " connected to container "
      ++ containerName lib s sess.publicKey ++ "\n") :: t1,
      rest ++ reportBridge err2 ++ [Event.exit status, disconnectedLine lib s sess],
      by simp [reportSetup]⟩

/-- Witness of C4: the image has not been pulled, so creating the container
fails; `handle` prints the error and still asks the daemon to create an
execution context. -/
theorem handle_setup_error_continues_witness :
    (handle demoLib demoServer emptyDocker demoSession noContainerRun).1 =
        [Event.printf "client 10.0.0.1:5000 connected to container alice\n",
          Event.containerInspect "alice", Event.containerCreate "ubuntu" "alice",
          Event.printErr (.withStack (.other "No such image: ubuntu")),
          Event.containerExecCreate "alice" ["false"] [] false,
          Event.printErr (.withStack (.notFound "No such container: alice")),
          Event.exit (-1),
          Event.printf "client 10.0.0.1:5000 disconnected from container alice\n"] ∧
      ∃ pre post, (handle demoLib demoServer emptyDocker demoSession noContainerRun).1 =
        pre ++ [Event.printErr (.withStack (.other "No such image: ubuntu")),
          Event.containerExecCreate (containerName demoLib demoServer demoSession.publicKey)
            (chosenCommand demoServer demoSession) demoSession.environ demoSession.tty] ++ post :=
  ⟨by decide,
    handle_setup_error_continues demoLib demoServer emptyDocker emptyDocker demoSession
      noContainerRun (.withStack (.other "No such image: ubuntu"))
      [Event.containerInspect "alice", Event.containerCreate "ubuntu" "alice"] (by decide)⟩

theorem ensureContainerStarted_no_exit (d : Docker) (image cid : String) :
    ∀ ev ∈ (ensureContainerStarted d image cid).2.2, ev.isExit = false := by
  unfold ensureContainerStarted
  dsimp only
  repeat' split
  all_goals simp [Event.isExit]

theorem startedTrace_no_exit {K : Type} (s : Server K) (sess : Session K) (cid execid : String) :
    ∀ ev ∈ startedTrace s sess cid execid, ev.isExit = false := by
  unfold startedTrace
  cases sess.tty <;> simp [Event.isExit]

theorem startedTrace_no_recvOutputErr {K : Type} (s : Server K) (sess : Session K)
    (cid execid : String) :
    ∀ ev ∈ startedTrace s sess cid execid, ev.isRecvOutputErr = false := by
  unfold startedTrace
  cases sess.tty <;> simp [Event.isRecvOutputErr]

theorem reportSetup_no_exit (err : Option GoError) :
    ∀ ev ∈ reportSetup err, ev.isExit = false := by
  cases err <;> simp [reportSetup, Event.isExit]

/-- C5 (amended): output before exit.  In a run of `containerExec` that has
started the command, when the race is won by a completion event (or by a nil
value on the error channel), the function returns only after it has received
the completion signal of the output relay on `outputErr`: it does not return
when the relay never signals, and otherwise the receipt is its last action,
and in the trace of `handle` no `sess.Exit` comes before the receipt.  When a
non-nil subscription error wins the race, `containerExec` returns -1 at once
and never receives from `outputErr`. -/
theorem containerExec_output_before_exit {K : Type} (lib : KeyLib K) (s : Server K)
    (d : Docker) (sess : Session K) (o : ExecOracle) (execid : String)
    (hcreate : o.execCreate = .ok execid) (hattach : o.execAttach = none)
    (hstart : o.execStart = none) :
    (((∃ attributes, o.race = some (.msg attributes)) ∨ o.race = some (.errs none)) →
      (o.copyErr = none →
        (containerExec s sess o (containerName lib s sess.publicKey)).1 = none ∧
          ∀ ev ∈ (handle lib s d sess o).1, ev.isExit = false) ∧
      (∀ copyErr, o.copyErr = some copyErr →
        ∃ status pre,
          containerExec s sess o (containerName lib s sess.publicKey) =
            (some (status, withStack copyErr),
              pre ++ [Event.recvOutputErr (withStack copyErr)]) ∧
          ∃ before after, (handle lib s d sess o).1 =
              before ++ [Event.recvOutputErr (withStack copyErr)] ++ after ∧
            (∀ ev ∈ before, ev.isExit = false) ∧ Event.exit status ∈ after)) ∧
    (∀ err, o.race = some (.errs (some err)) →
      containerExec s sess o (containerName lib s sess.publicKey) =
        (some (-1, some (.withStack err)),
          startedTrace s sess (containerName lib s sess.publicKey) execid ++
            [Event.recvErrs (some err)]) ∧
      ∀ ev ∈ startedTrace s sess (containerName lib s sess.publicKey) execid ++
          [Event.recvErrs (some err)], ev.isRecvOutputErr = false) := by
  constructor
  · intro hwin
    have hform : ∃ status pre,
        containerExec s sess o (containerName lib s sess.publicKey) = awaitOutput o status pre ∧
          ∀ ev ∈ pre, ev.isExit = false := by
      rcases hwin with ⟨attributes, hrace⟩ | hrace
      · refine ⟨_, _, containerExec_msg s sess o _ execid attributes hcreate hattach hstart hrace,
          ?_⟩
        intro ev hev
        rcases List.mem_append.mp hev with h | h
        · exact startedTrace_no_exit s sess _ execid ev h
        · simp at h
          subst h
          rfl
      · refine ⟨_, _, containerExec_errs_nil s sess o _ execid hcreate hattach hstart hrace, ?_⟩
        intro ev hev
        rcases List.mem_append.mp hev with h | h
        · exact startedTrace_no_exit s sess _ execid ev h
        · simp at h
          subst h
          rfl
    obtain ⟨status, pre, hexec, hpre⟩ := hform
    rcases hens : ensureContainerStarted d s.image (containerName lib s sess.publicKey)
      with ⟨err1, d1, t1⟩
    have ht1 : ∀ ev ∈ t1, ev.isExit = false := by
      have h := ensureContainerStarted_no_exit d s.image (containerName lib s sess.publicKey)
      rw [hens] at h
      exact h
    constructor
    · intro hnone
      have hexec2 : containerExec s sess o (containerName lib s sess.publicKey) = (none, pre) := by
        rw [hexec]
        simp [awaitOutput, hnone]
      refine ⟨by rw [hexec2], ?_⟩
      rw [handle_blocked lib s d d1 sess o err1 t1 pre hens hexec2]
      intro ev hev
      simp only [List.mem_append, List.mem_singleton] at hev
      rcases hev with ((h | h) | h) | h
      · subst h
        rfl
      · exact ht1 ev h
      · exact reportSetup_no_exit err1 ev h
      · exact hpre ev h
    · intro copyErr hsome
      have hexec2 : containerExec s sess o (containerName lib s sess.publicKey) =
          (some (status, withStack copyErr),
            pre ++ [Event.recvOutputErr (withStack copyErr)]) := by
        rw [hexec]
        simp [awaitOutput, hsome]
      refine ⟨status, pre, hexec2,
        [Event.printf ("client " ++ sess.remoteAddr ++ " connected to container "
          ++ containerName lib s sess.publicKey ++ "\n")] ++ t1 ++ reportSetup err1 ++ pre,
        reportBridge (withStack copyErr) ++ [Event.exit status, disconnectedLine lib s sess],
        ?_, ?_, ?_⟩
      · rw [handle_returned lib s d d1 sess o err1 (withStack copyErr) t1 _ status hens hexec2]
        simp only [List.append_assoc]
      · intro ev hev
        simp only [List.mem_append, List.mem_singleton] at hev
        rcases hev with ((h | h) | h) | h
        · subst h
          rfl
        · exact ht1 ev h
        · exact reportSetup_no_exit err1 ev h
        · exact hpre ev h
      · simp
  · intro err hrace
    refine ⟨containerExec_errs s sess o _ execid err hcreate hattach hstart hrace, ?_⟩
    intro ev hev
    rcases List.mem_append.mp hev with h | h
    · exact startedTrace_no_recvOutputErr s sess _ execid ev h
    · simp at h
      subst h
      rfl

/-- Witness of C5 (amended): when the command of the session completes and the
output relay ends, `containerExec` returns after the receipt from `outputErr`,
and `handle` calls `sess.Exit` after it. -/
theorem containerExec_output_before_exit_witness :
    ∃ status pre,
      containerExec demoServer demoSession (completedRun [("exitCode", [49])])
          (containerName demoLib demoServer demoSession.publicKey) =
        (some (status, withStack none), pre ++ [Event.recvOutputErr (withStack none)]) ∧
      ∃ before after,
        (handle demoLib demoServer freshDocker demoSession
            (completedRun [("exitCode", [49])])).1 =
          before ++ [Event.recvOutputErr (withStack none)] ++ after ∧
        (∀ ev ∈ before, ev.isExit = false) ∧ Event.exit status ∈ after :=
  ((containerExec_output_before_exit demoLib demoServer freshDocker demoSession
    (completedRun [("exitCode", [49])]) "e1" rfl rfl rfl).1 (Or.inl ⟨_, rfl⟩)).2 none rfl

/-- Counterexample to C5 as stated: the client disconnects while the command
runs.  The command has been started, the subscription error wins the race, and
`containerExec` returns without a receipt from `outputErr`; `handle` calls
`sess.Exit` although its trace has no such receipt. -/
theorem containerExec_returns_before_output_counterexample :
    Event.containerExecStart "e1" ∈ (containerExec demoServer demoSession disconnectRun "alice").2 ∧
      (containerExec demoServer demoSession disconnectRun "alice").1 =
        some (-1, some (.withStack .canceled)) ∧
      (∀ ev ∈ (containerExec demoServer demoSession disconnectRun "alice").2,
        ev.isRecvOutputErr = false) ∧
      Event.exit (-1) ∈ (handle demoLib demoServer freshDocker demoSession disconnectRun).1 ∧
      (∀ ev ∈ (handle demoLib demoServer freshDocker demoSession disconnectRun).1,
        ev.isRecvOutputErr = false) := by
  decide

end SSHContainers
